import Mathlib

/-!
Verification of the branch-metadata core of the Commandos repository:
the branch record parser (`src/app/git/parsers/branch.ts`), and the
repository session service (`src/app/routes/repository/repository.service.ts`).

JavaScript values that may be `undefined` are modelled as `Option`;
JavaScript truthiness of a string-or-undefined value is `truthyOpt`
(`undefined` and `""` are falsy).  Fallible async calls are modelled as
`Except String` (the thrown `Error` message).  External git commands that
the service awaits (`getBranches`, `getCurrentBranch`, `countRevList`) are
not part of the two source files; their results are passed in as explicit
oracle arguments, with `countRevList` modelled from the spec's Command
Gateway contract `countReachable(path, fromRef, excludingRef)`.
-/

/-- JavaScript truthiness for a `string | undefined` value:
`undefined` and the empty string are falsy. -/
def truthyOpt : Option String → Bool
  | none => false
  | some s => s ≠ ""

/-- A parsed branch record.  The field schema comes from
`branchFormaterObject` (declared in `@git/model`, outside the two source
files); modelled from the spec, whose Field Schema section names the
logical fields `name`, `upstream`, `sha`, `isCurrent` in order.  Each
schema field holds the positional piece of the split line, or `none` when
the line had fewer fields (JavaScript `undefined`).  `ahead`/`behind` are
the divergence counters set to `0` by the parser. -/
structure Branch where
  name : Option String
  upstream : Option String
  sha : Option String
  isCurrent : Option String
  ahead : Nat
  behind : Nat
deriving DecidableEq

/-- Model of JavaScript `s.split('%x00')` over the character list: scan
left to right, cutting at each non-overlapping occurrence of the
four-character separator `%x00`. -/
def splitX00Aux : List Char → List Char → List (List Char)
  | [], acc => [acc.reverse]
  | '%' :: 'x' :: '0' :: '0' :: rest, acc => acc.reverse :: splitX00Aux rest []
  | c :: rest, acc => splitX00Aux rest (c :: acc)

/-- JavaScript `s.split('%x00')`. -/
def jsSplitX00 (s : String) : List String :=
  (splitX00Aux s.data []).map String.mk

/-- Model of JavaScript `s.split('\n')` over the character list. -/
def splitNlAux : List Char → List Char → List (List Char)
  | [], acc => [acc.reverse]
  | '\n' :: rest, acc => acc.reverse :: splitNlAux rest []
  | c :: rest, acc => splitNlAux rest (c :: acc)

/-- JavaScript `s.split('\n')`. -/
def jsSplitNl (s : String) : List String :=
  (splitNlAux s.data []).map String.mk

/-- One line of raw output turned into a `Branch`:
`const data = records[i].split('%x00'); keys.forEach((key, ix) => entry[key] = data[ix]);
branch.ahead = 0; branch.behind = 0;` -/
def parseLine (line : String) : Branch :=
  let data := jsSplitX00 line
  { name := data.get? 0
    upstream := data.get? 1
    sha := data.get? 2
    isCurrent := data.get? 3
    ahead := 0
    behind := 0 }

/-- The deduplication step of `parseBranches`:
`const withUpstreamBranch = entries.filter(e => e.upstream).map(m => m.upstream);
entries = entries.filter(f => !withUpstreamBranch.includes(f.name));` -/
def dedupBranches (entries : List Branch) : List Branch :=
  let withUpstreamBranch :=
    (entries.filter (fun e => truthyOpt e.upstream)).map (fun m => m.upstream)
  entries.filter (fun f => !(withUpstreamBranch.contains f.name))

/-- `parseBranches(stdout)` from `src/app/git/parsers/branch.ts`.
The argument is `Option String` because the awaited command result may be
`undefined`; the `if (stdout)` truthiness guard sends `undefined` and `""`
to the `throw new Error` branch. -/
def parseBranches (stdout : Option String) : Except String (List Branch) :=
  if truthyOpt stdout then
    let records := jsSplitNl (stdout.getD "")
    let entries := records.map parseLine
    .ok (dedupBranches entries)
  else
    .error "Failed to parse branches"

/-- Model of JavaScript `parseInt(s)` for decimal input: skip leading
spaces, take an optional sign and the longest digit prefix; `none` stands
for `NaN` (no digits). -/
def parseIntJS (s : String) : Option Int :=
  let cs := s.data.dropWhile (fun c => c = ' ')
  let signAndRest : Int × List Char :=
    match cs with
    | '-' :: r => (-1, r)
    | '+' :: r => (1, r)
    | _ => (1, cs)
  let ds := signAndRest.2.takeWhile Char.isDigit
  if ds.isEmpty then none
  else some (signAndRest.1 * (ds.foldl (fun acc c => acc * 10 + (c.toNat - 48)) 0 : Nat))

/-- JavaScript `a !== b` on `number`-valued state, where `none` stands for
`undefined` or `NaN`: strict inequality holds unless both sides are the
same actual number (`undefined !== x` and `NaN !== x` are always true in
the positions this model is used in, since the compared `newId` is never
`undefined`). -/
def jsNeq : Option Int → Option Int → Bool
  | some a, some b => a != b
  | _, _ => true

/-- The mutable fields of `RepositoryService` that the claims are about:
`currentId!: number` (`none` before the first `setId`), the `loaded`
`BehaviorSubject` value, the `branches` `BehaviorSubject` value (`null`
until first publication), and `currentBranch!: string` (`none` while
unassigned). -/
structure SessionState where
  currentId : Option Int
  loaded : Bool
  branches : Option (List Branch)
  currentBranch : Option String
deriving DecidableEq

/-- A `countRevList` oracle.  `countRevList` lives in
`@git/commands/rev-list`, outside the two source files; modelled from the
spec's Command Gateway contract
`countReachable(path, fromRef, excludingRef) → integer`: the two reference
arguments (each possibly `undefined`) determine the count, or the call
rejects with an error message.  The repository path is fixed for one
service instance and omitted. -/
def CountFn : Type := Option String → Option String → Except String Nat

/-- Divergence computation for one branch of the loop body in
`RepositoryService.getBranches`:
`const ahead = await countRevList(path, element.upstream, element.name);
const behind = await countRevList(path, element.name, element.upstream);
element.ahead = ahead; element.behind = behind;`
performed only for elements of `parsedBranches.filter(f => f.upstream)`.
Besides the updated branch it returns the trace of `countRevList`
invocations as `(fromRef, excludingRef)` pairs. -/
def divergeOne (count : CountFn) (b : Branch) :
    Except String (Branch × List (Option String × Option String)) :=
  if truthyOpt b.upstream then
    match count b.upstream b.name with
    | .error e => .error e
    | .ok ahead =>
      match count b.name b.upstream with
      | .error e => .error e
      | .ok behind =>
        .ok ({ b with ahead := ahead, behind := behind },
             [(b.upstream, b.name), (b.name, b.upstream)])
  else .ok (b, [])

/-- The whole sequential divergence loop over the parsed branches, in list
order, stopping at the first rejected `countRevList` call (the `await`s in
the source loop are not wrapped in any try/catch). -/
def divergeAll (count : CountFn) :
    List Branch → Except String (List Branch × List (Option String × Option String))
  | [] => .ok ([], [])
  | b :: rest =>
    match divergeOne count b with
    | .error e => .error e
    | .ok (b2, calls) =>
      match divergeAll count rest with
      | .error e => .error e
      | .ok (rest2, calls2) => .ok (b2 :: rest2, calls ++ calls2)

namespace RepositoryService

/-- `setId(id)` from `repository.service.ts`:
`const newId = parseInt(id);
if (this.currentId !== newId) { this.loaded.next(false); }
this.currentId = newId;` -/
def setId (id : String) (st : SessionState) : SessionState :=
  let newId := parseIntJS id
  let st1 := if jsNeq st.currentId newId then { st with loaded := false } else st
  { st1 with currentId := newId }

/-- `getCurrentBranch()` from `repository.service.ts`, with the awaited
command result passed in:
`const currentBranch = await getCurrentBranch(this.getPath());
if (currentBranch) { this.currentBranch = currentBranch; }
return this.currentBranch;` -/
def getCurrentBranch (cmdResult : Option String) (st : SessionState) :
    SessionState × Option String :=
  let st2 := if truthyOpt cmdResult then { st with currentBranch := cmdResult } else st
  (st2, st2.currentBranch)

/-- The publication step `this.branches.next(parsedBranches)` at the end of
`getBranches()`: it replaces the published collection unconditionally,
without comparing the session identity the refresh was started for against
the current one. -/
def publish (updated : List Branch) (st : SessionState) : SessionState :=
  { st with branches := some updated }

/-- `getBranches()` from `repository.service.ts`, with the awaited
`getBranches(path)` command result and the `countRevList` oracle passed in:
`const branches = await getBranches(this.getPath());
if (branches) { const parsedBranches = parseBranches(branches); ... loop ...
this.branches.next(parsedBranches); }`
Returns the new state and the trace of `countRevList` calls, or the
uncaught rejection. -/
def getBranches (raw : Option String) (count : CountFn) (st : SessionState) :
    Except String (SessionState × List (Option String × Option String)) :=
  if truthyOpt raw then
    match parseBranches raw with
    | .error e => .error e
    | .ok parsed =>
      match divergeAll count parsed with
      | .error e => .error e
      | .ok (updated, calls) => .ok (publish updated st, calls)
  else .ok (st, [])

end RepositoryService

/-- The deduplication rule stated in the spec's own words, for comparison
with `dedupBranches`: collect the set U of non-empty upstream values over
all records; keep exactly the records whose name is not in U, in order. -/
def dedupSpecRule (records : List Branch) : List Branch :=
  records.filter (fun r =>
    decide (¬ ∃ e ∈ records, truthyOpt e.upstream = true ∧ e.upstream = r.name))

def c1Main : Branch :=
  { name := some "main", upstream := none, sha := none, isCurrent := none,
    ahead := 0, behind := 0 }

def c1OriginMain : Branch := { c1Main with name := some "origin/main" }

def c1Feature : Branch :=
  { c1Main with name := some "feature", upstream := some "origin/feature" }

def c1OriginFeature : Branch := { c1Main with name := some "origin/feature" }

def c1Records : List Branch := [c1Main, c1OriginMain, c1Feature, c1OriginFeature]

def c10St : SessionState :=
  { currentId := some 1, loaded := true, branches := none,
    currentBranch := some "main" }

def c6St : SessionState :=
  { currentId := some 1, loaded := true,
    branches := some [parseLine "work"], currentBranch := some "main" }

def c5St : SessionState :=
  { currentId := some 1, loaded := true,
    branches := some [parseLine "kept"], currentBranch := some "main" }

def c5Count : CountFn := fun _ _ => .ok 0

def c4Raw : Option String := some "alpha%x00origin/alpha\nbeta%x00origin/beta"

def c4Count : CountFn := fun fromRef _ =>
  if fromRef = some "origin/alpha" then .error "rev-list failed" else .ok 1

def c4St : SessionState :=
  { currentId := some 1, loaded := true, branches := none, currentBranch := none }

def c9Stale : List Branch := [parseLine "feature-of-repo-1"]

def c9St : SessionState :=
  { currentId := some 1, loaded := true, branches := none, currentBranch := none }

/-- The call trace the spec prescribes: exactly two counting calls per
tracked branch, `(upstream, name)` then `(name, upstream)`, in collection
order, and none for a branch with an empty upstream. -/
def specCalls : List Branch -> List (Option String × Option String)
  | [] => []
  | b :: rest =>
    (if truthyOpt b.upstream then
      [(b.upstream, b.name), (b.name, b.upstream)] else []) ++ specCalls rest

def c2Raw : Option String := some "feature%x00origin/feature\nmain"

def c2Count : CountFn := fun _ _ => .ok 7

def c2St : SessionState :=
  { currentId := some 1, loaded := true, branches := none, currentBranch := none }

def c2Feat : Branch :=
  { name := some "feature", upstream := some "origin/feature", sha := none,
    isCurrent := none, ahead := 0, behind := 0 }

def c2MainB : Branch :=
  { name := some "main", upstream := none, sha := none, isCurrent := none,
    ahead := 0, behind := 0 }

def c2Parsed : List Branch := [c2Feat, c2MainB]

def c2FeatUp : Branch := { c2Feat with ahead := 7, behind := 7 }

def c2OutSt : SessionState := { c2St with branches := some [c2FeatUp, c2MainB] }

def c2Calls : List (Option String × Option String) :=
  [(some "origin/feature", some "feature"), (some "feature", some "origin/feature")]

def c7Count : CountFn := fun fromRef exclRef =>
  if fromRef = some "origin/feature" ∧ exclRef = some "feature" then .ok 2
  else if fromRef = some "feature" ∧ exclRef = some "origin/feature" then .ok 5
  else .error "unexpected refs"

def c7St : SessionState :=
  { currentId := some 1, loaded := true, branches := none, currentBranch := none }

def c7Resolved : Branch :=
  { name := some "feature", upstream := some "origin/feature", sha := none,
    isCurrent := none, ahead := 2, behind := 5 }

/-- C1: for every input record sequence, the resolved collection equals the
input filtered by the spec's deduplication rule (records whose name is in
the set of non-empty upstream values are removed, order preserved), and on
the concrete four-record input the output excludes `origin/feature` and
retains `main`, `origin/main`, `feature`. -/
theorem dedup_matches_spec_rule :
    (∀ records : List Branch, dedupBranches records = dedupSpecRule records) ∧
    dedupBranches c1Records = [c1Main, c1OriginMain, c1Feature] := by
  constructor
  · intro records
    unfold dedupBranches dedupSpecRule
    apply List.filter_congr
    intro x _
    rw [Bool.eq_iff_iff]
    simp only [Bool.not_eq_true', ← Bool.not_eq_true, decide_eq_true_iff,
      List.elem_iff, List.mem_map, List.mem_filter]
    constructor
    · intro h hex
      rcases hex with ⟨e, he, ht, hu⟩
      exact h ⟨e, ⟨he, ht⟩, hu⟩
    · intro h hex
      rcases hex with ⟨e, ⟨he, ht⟩, hu⟩
      exact h ⟨e, he, ht, hu⟩
  · rfl

/-- C8: `parseBranches` applied to the empty string fails with the parse
error, and applied to an absent (`undefined`/`null`) input fails with the
parse error; neither is returned as an empty record list. -/
theorem parseBranches_empty_absent_fail :
    parseBranches (some "") = .error "Failed to parse branches" ∧
    parseBranches none = .error "Failed to parse branches" := ⟨rfl, rfl⟩

/-- C3: the code violates this claim.  On raw text `"main\n"` (one real
line plus a trailing newline) the parser emits the degenerate trailing
record rather than dropping it or failing: the output has two records and
the second has the empty name `""` with every other schema field
`undefined`. -/
theorem parseBranches_degenerate_line :
    parseBranches (some "main\n") =
      .ok [{ name := some "main", upstream := none, sha := none,
             isCurrent := none, ahead := 0, behind := 0 },
           { name := some "", upstream := none, sha := none,
             isCurrent := none, ahead := 0, behind := 0 }] := rfl

/-- C10: when the current-branch command result is falsy (empty or
absent), `getCurrentBranch` leaves the stored `currentBranch` unchanged and
returns that previous value. -/
theorem getCurrentBranch_falsy_keeps_previous
    (st : SessionState) (r : Option String) (h : truthyOpt r = false) :
    RepositoryService.getCurrentBranch r st = (st, st.currentBranch) := by
  unfold RepositoryService.getCurrentBranch
  simp [h]

/-- Witness for C10 at the empty command result and a session whose stored
current branch is `main`. -/
theorem getCurrentBranch_falsy_keeps_previous_witness :
    truthyOpt (some "") = false ∧
    RepositoryService.getCurrentBranch (some "") c10St = (c10St, some "main") :=
  ⟨rfl, getCurrentBranch_falsy_keeps_previous c10St (some "") rfl⟩

/-- Closed form of `setId`: the identity is always adopted and `loaded` is
forced to `false` exactly when the parsed id differs (JavaScript `!==`)
from the current one; no other field is touched. -/
theorem setId_spec (id : String) (st : SessionState) :
    RepositoryService.setId id st =
      { st with currentId := parseIntJS id,
                loaded := if jsNeq st.currentId (parseIntJS id) then false else st.loaded } := by
  unfold RepositoryService.setId
  cases h : jsNeq st.currentId (parseIntJS id) <;> simp [h]

/-- C6 counterexample: from a session with identity 1, a loaded flag, a
published branch collection and a current branch name, `setId "2"` changes
the identity but retains both the branch collection and the current branch
name, so the claimed discarding does not happen. -/
theorem setId_counterexample :
    c6St.currentId = some 1 ∧ parseIntJS "2" = some 2 ∧
    (RepositoryService.setId "2" c6St).branches = some [parseLine "work"] ∧
    (RepositoryService.setId "2" c6St).currentBranch = some "main" :=
  ⟨rfl, rfl, rfl, rfl⟩

/-- C6 amended: `setId` with an id that parses differently from the current
identity immediately (synchronously, before any external call) sets
`loaded` to `false` and adopts the new identity, while retaining the
branches collection and the current branch name; with an id equal to the
current identity it changes no observable state. -/
theorem setId_amended (id : String) (st : SessionState) :
    (jsNeq st.currentId (parseIntJS id) = true →
      RepositoryService.setId id st =
        { st with loaded := false, currentId := parseIntJS id }) ∧
    (jsNeq st.currentId (parseIntJS id) = false →
      RepositoryService.setId id st = st) := by
  constructor
  · intro h
    rw [setId_spec]
    simp [h]
  · intro h
    have hid : st.currentId = parseIntJS id := by
      rcases hc : st.currentId with _ | a <;> rcases hp : parseIntJS id with _ | b <;>
        rw [hc, hp] at h <;> simp [jsNeq] at h <;> simp [h]
    rw [setId_spec]
    cases st
    simp_all

/-- Witness for C6 (amended) at identity 1 and id string `"2"`: the loaded
flag drops and the branch collection is retained. -/
theorem setId_amended_witness :
    jsNeq c6St.currentId (parseIntJS "2") = true ∧
    RepositoryService.setId "2" c6St =
      { c6St with loaded := false, currentId := parseIntJS "2" } :=
  ⟨rfl, (setId_amended "2" c6St).1 rfl⟩

/-- C5 counterexample: with the previously published collection still
present, a refresh whose listing command result is the empty string — and
one whose result is absent — completes without any error (so no
`ParseError` reaches the caller) and leaves the state untouched. -/
theorem getBranches_empty_no_error :
    RepositoryService.getBranches (some "") c5Count c5St = .ok (c5St, []) ∧
    RepositoryService.getBranches none c5Count c5St = .ok (c5St, []) := ⟨rfl, rfl⟩

/-- C5 amended: when the branch-listing command returns empty or absent raw
text, the refresh silently skips parsing, divergence computation and
publication: it completes without error, performs no counting calls, and
the published branch collection stays exactly what it was (in particular it
is never replaced by an empty one).  The parser itself would throw on such
input, but the truthiness guard in the service makes that path unreachable
from the refresh. -/
theorem getBranches_falsy_silent_skip
    (raw : Option String) (count : CountFn) (st : SessionState)
    (h : truthyOpt raw = false) :
    RepositoryService.getBranches raw count st = .ok (st, []) := by
  unfold RepositoryService.getBranches
  simp [h]

/-- Witness for C5 (amended) at the empty listing result. -/
theorem getBranches_falsy_silent_skip_witness :
    truthyOpt (some "") = false ∧
    RepositoryService.getBranches (some "") c5Count c5St = .ok (c5St, []) :=
  ⟨rfl, getBranches_falsy_silent_skip (some "") c5Count c5St rfl⟩

/-- C4: the code violates this claim.  With two tracked branches and a
counting oracle that rejects on the first branch's first call, the whole
refresh rejects with that error: the loop has no per-branch isolation, the
second branch's divergence is never computed, and no collection is
published (the error is thrown to the caller, not reported in place). -/
theorem getBranches_count_failure_aborts :
    RepositoryService.getBranches c4Raw c4Count c4St = .error "rev-list failed" := rfl

/-- C9: the code violates this claim.  `publish` is the continuation that a
suspended `getBranches` refresh runs when its awaited calls resolve; it
stores the result unconditionally, with no identity tag or comparison.  So
in the interleaving `refresh for identity 1` … `setId "2"` … `stale result
arrives`, the published branches become the identity-1 collection even
though the current identity is 2. -/
theorem stale_publish_overwrites :
    (RepositoryService.publish c9Stale (RepositoryService.setId "2" c9St)).currentId = some 2 ∧
    (RepositoryService.publish c9Stale (RepositoryService.setId "2" c9St)).branches = some c9Stale :=
  ⟨rfl, rfl⟩

/-- What a successful `divergeOne` produced: its two `countRevList` calls
(`(upstream, name)` then `(name, upstream)`) for a tracked branch, none for
an untracked one, and the branch updated with the two counts. -/
theorem divergeOne_ok (count : CountFn) (b b2 : Branch)
    (cls : List (Option String × Option String))
    (h : divergeOne count b = .ok (b2, cls)) :
    cls = (if truthyOpt b.upstream then
            [(b.upstream, b.name), (b.name, b.upstream)] else []) ∧
    (truthyOpt b.upstream = true →
      ∃ a bh, count b.upstream b.name = .ok a ∧ count b.name b.upstream = .ok bh ∧
        b2 = { b with ahead := a, behind := bh }) ∧
    (truthyOpt b.upstream = false → b2 = b) := by
  unfold divergeOne at h
  cases ht : truthyOpt b.upstream with
  | false =>
    rw [ht] at h
    simp at h
    exact ⟨by simp [ht, h.2], fun hc => by simp [ht] at hc, fun _ => h.1.symm⟩
  | true =>
    rw [ht] at h
    simp at h
    cases h1 : count b.upstream b.name with
    | error e => rw [h1] at h; simp at h
    | ok a =>
      rw [h1] at h
      cases h2 : count b.name b.upstream with
      | error e => rw [h2] at h; simp at h
      | ok bh =>
        rw [h2] at h
        simp at h
        exact ⟨by simp [ht, h.2], fun _ => ⟨a, bh, rfl, rfl, h.1.symm⟩,
               fun hf => by simp [ht] at hf⟩

/-- What a successful run of the whole divergence loop produced: the call
trace is exactly two `countRevList` calls per tracked branch (in list
order, none for untracked branches), and positionally each tracked branch
carries the two returned counts while each untracked branch is returned
unchanged. -/
theorem divergeAll_ok (count : CountFn) :
    ∀ (parsed out : List Branch) (calls : List (Option String × Option String)),
      divergeAll count parsed = .ok (out, calls) ->
      calls = specCalls parsed ∧
      ∀ i b, parsed.get? i = some b ->
        ∃ b2, out.get? i = some b2 ∧
          (truthyOpt b.upstream = true ->
            ∃ a bh, count b.upstream b.name = .ok a ∧
              count b.name b.upstream = .ok bh ∧
              b2 = { b with ahead := a, behind := bh }) ∧
          (truthyOpt b.upstream = false -> b2 = b) := by
  intro parsed
  induction parsed with
  | nil =>
    intro out calls h
    simp [divergeAll] at h
    obtain ⟨h1, h2⟩ := h
    subst h1
    subst h2
    simp [specCalls]
  | cons b rest ih =>
    intro out calls h
    rw [divergeAll] at h
    cases hd1 : divergeOne count b with
    | error e => rw [hd1] at h; simp at h
    | ok pr =>
      obtain ⟨b2, cls⟩ := pr
      rw [hd1] at h
      cases hd2 : divergeAll count rest with
      | error e => rw [hd2] at h; simp at h
      | ok pr2 =>
        obtain ⟨rest2, cls2⟩ := pr2
        rw [hd2] at h
        simp at h
        obtain ⟨ho, hc⟩ := h
        obtain ⟨hcls, htr, hfl⟩ := divergeOne_ok count b b2 cls hd1
        obtain ⟨ihc, ihg⟩ := ih rest2 cls2 hd2
        constructor
        · rw [← hc, hcls, ihc, specCalls]
        · intro i bb hib
          cases i with
          | zero =>
            rw [List.get?_cons_zero] at hib
            injection hib with hbb
            subst hbb
            exact ⟨b2, by rw [← ho, List.get?_cons_zero], htr, hfl⟩
          | succ j =>
            rw [List.get?_cons_succ] at hib
            obtain ⟨bj, h1, h2, h3⟩ := ihg j bb hib
            exact ⟨bj, by rw [← ho, List.get?_cons_succ]; exact h1, h2, h3⟩

/-- Every record the parser emits carries the parse-time defaults
`ahead = 0` and `behind = 0`. -/
theorem parseBranches_defaults (raw : Option String) (l : List Branch)
    (h : parseBranches raw = .ok l) :
    ∀ b ∈ l, b.ahead = 0 ∧ b.behind = 0 := by
  unfold parseBranches at h
  cases ht : truthyOpt raw with
  | false => rw [ht] at h; simp at h
  | true =>
    rw [ht] at h
    simp at h
    intro b hb
    rw [← h] at hb
    unfold dedupBranches at hb
    have hb2 := List.mem_filter.mp hb
    obtain ⟨line, _, hline⟩ := List.mem_map.mp hb2.1
    rw [← hline]
    exact ⟨rfl, rfl⟩

/-- C2: if a refresh with truthy raw text succeeds, then the published
collection is positionally the deduplicated parse result with divergence
assigned as follows: each branch with a non-empty upstream was the subject
of exactly two counting calls, `ahead = count(fromRef = upstream,
excludingRef = name)` and `behind = count(fromRef = name, excludingRef =
upstream)` (the full call trace is exactly `specCalls parsed`), while each
branch with an empty upstream is published unchanged with its parse-time
defaults `ahead = 0` and `behind = 0`. -/
theorem getBranches_divergence_spec (raw : Option String) (count : CountFn)
    (st st2 : SessionState) (calls : List (Option String × Option String))
    (parsed : List Branch)
    (ht : truthyOpt raw = true)
    (hp : parseBranches raw = .ok parsed)
    (hg : RepositoryService.getBranches raw count st = .ok (st2, calls)) :
    ∃ out, st2 = RepositoryService.publish out st ∧
      calls = specCalls parsed ∧
      (∀ i b, parsed.get? i = some b →
        ∃ b2, out.get? i = some b2 ∧
          (truthyOpt b.upstream = true →
            ∃ a bh, count b.upstream b.name = .ok a ∧
              count b.name b.upstream = .ok bh ∧
              b2 = { b with ahead := a, behind := bh }) ∧
          (truthyOpt b.upstream = false → b2 = b ∧ b2.ahead = 0 ∧ b2.behind = 0)) := by
  unfold RepositoryService.getBranches at hg
  rw [ht] at hg
  simp only [if_true] at hg
  rw [hp] at hg
  dsimp only at hg
  cases hd : divergeAll count parsed with
  | error e => rw [hd] at hg; simp at hg
  | ok pr =>
    obtain ⟨updated, cls⟩ := pr
    rw [hd] at hg
    simp at hg
    obtain ⟨hcalls, hidx⟩ := divergeAll_ok count parsed updated cls hd
    refine ⟨updated, hg.1.symm, by rw [← hg.2, hcalls], ?_⟩
    intro i b hib
    obtain ⟨b2, h1, h2, h3⟩ := hidx i b hib
    refine ⟨b2, h1, h2, fun hf => ?_⟩
    have hb0 := parseBranches_defaults raw parsed hp b (List.get?_mem hib)
    exact ⟨h3 hf, by rw [h3 hf]; exact hb0.1, by rw [h3 hf]; exact hb0.2⟩

/-- Witness for C2 at a two-line listing (one tracked, one untracked
branch) and a constant counting oracle returning 7. -/
theorem getBranches_divergence_spec_witness :
    ∃ out, c2OutSt = RepositoryService.publish out c2St ∧
      c2Calls = specCalls c2Parsed ∧
      (∀ i b, c2Parsed.get? i = some b →
        ∃ b2, out.get? i = some b2 ∧
          (truthyOpt b.upstream = true →
            ∃ a bh, c2Count b.upstream b.name = .ok a ∧
              c2Count b.name b.upstream = .ok bh ∧
              b2 = { b with ahead := a, behind := bh }) ∧
          (truthyOpt b.upstream = false → b2 = b ∧ b2.ahead = 0 ∧ b2.behind = 0)) :=
  getBranches_divergence_spec c2Raw c2Count c2St c2OutSt c2Calls c2Parsed rfl rfl rfl

/-- C7 counterexample: with `countReachable(origin/feature, excluding
feature) = 2` and `countReachable(feature, excluding origin/feature) = 5`,
the refresh resolves branch `feature` with `ahead = 2` and `behind = 5` —
not `ahead = 5, behind = 2` as claimed: the code assigns the result of
`countRevList(path, upstream, name)` to `ahead`. -/
theorem divergence_example_counterexample :
    RepositoryService.getBranches (some "feature%x00origin/feature") c7Count c7St =
      .ok ({ c7St with branches := some [c7Resolved] },
           [(some "origin/feature", some "feature"),
            (some "feature", some "origin/feature")]) ∧
    ¬(c7Resolved.ahead = 5 ∧ c7Resolved.behind = 2) :=
  ⟨rfl, by decide⟩

/-- C7 amended: for branch `feature` with upstream `origin/feature`, if the
counting call with `fromRef = origin/feature, excludingRef = feature`
returns 2 and the one with `fromRef = feature, excludingRef =
origin/feature` returns 5, the resolved branch has `ahead = 2` and
`behind = 5`. -/
theorem divergence_example_amended :
    ∃ st2 calls,
      RepositoryService.getBranches (some "feature%x00origin/feature") c7Count c7St =
        .ok (st2, calls) ∧
      st2.branches = some [c7Resolved] ∧
      c7Resolved.ahead = 2 ∧ c7Resolved.behind = 5 :=
  ⟨_, _, rfl, rfl, rfl, rfl⟩

